import Mathlib

/-!
Shallow embedding of the scribble-backend game server, following the
feature-complete variant (countdown + round + session controller).

Modelling conventions:
* JS objects with string keys (`users`, `scores`) are insertion-ordered
  association lists; `obj[k]`, `obj[k] = v` and `delete obj[k]` are `alGet`,
  `alSet` and `alRemove`.
* `Date.now()` and the random word index of `Math.random()` are threaded in as
  explicit event parameters.
* Cancellable timer handles (`roundTimer`, `sessionTimer`, `countdownTimer`,
  which the code stores and passes to `clearTimeout` / `clearInterval`) are
  modelled as generation numbers drawn from a counter `nextGen`; a timer-fire
  event has an effect only when its generation is still the one stored in the
  corresponding field, which is exactly the semantics of `clearTimeout`.
* Anonymous, uncancellable `setTimeout` callbacks (the 5000 ms intermission in
  `endRound` and the 10000 ms score reset in `endSession`) are reported as
  `Sched` values by the scheduling step; their later execution is a separate
  inbound event whose body re-checks the state, as the JS callbacks do.
* `io.emit` / `socket.emit` calls are collected into a list of `Emit` values;
  fixed System chat texts are represented by one constructor per announcement,
  carrying the data the code interpolates into the text.
* The 1-second `setInterval` that merely re-broadcasts `gameState` snapshots is
  not modelled: its body reads state and emits a snapshot but never writes.
-/

namespace Scribble

/-- JS object lookup `obj[k]` on an insertion-ordered association list. -/
def alGet {α : Type} (k : String) : List (String × α) → Option α
  | [] => none
  | p :: rest => if p.1 = k then some p.2 else alGet k rest

/-- JS `k in obj`. -/
def alHas {α : Type} (k : String) : List (String × α) → Bool
  | [] => false
  | p :: rest => p.1 = k || alHas k rest

/-- JS assignment `obj[k] = v`: updates the existing entry in place (keeping
its position in insertion order), otherwise appends a new entry. -/
def alSet {α : Type} (k : String) (v : α) (l : List (String × α)) : List (String × α) :=
  if alHas k l then l.map (fun p => if p.1 = k then (k, v) else p) else l ++ [(k, v)]

/-- JS `delete obj[k]`. -/
def alRemove {α : Type} (k : String) (l : List (String × α)) : List (String × α) :=
  l.filter (fun p => !(p.1 == k))

/-- The fixed word pool, `const wordList = [...]` of the session variant (37 words). -/
def wordList : List String :=
  ["apple", "banana", "cat", "dog", "car", "house", "tree", "sun",
   "moon", "star", "computer", "phone", "book", "chair", "table",
   "guitar", "pizza", "camera", "clock", "flower", "mountain", "ocean",
   "pencil", "bottle", "lamp", "door", "window", "bird", "fish", "rocket",
   "bicycle", "umbrella", "butterfly", "rainbow", "cloud", "beach", "forest"]

def ROUND_DURATION : Int := 120000

def SESSION_DURATION : Int := 600000

/-- Uniform pick `wordList[Math.floor(Math.random() * wordList.length)]`, with the
random draw `k` supplied by the environment. -/
def selectRandomWord (k : Nat) : String :=
  wordList.getD (k % wordList.length) ""

/-- Whitespace test used by `String.prototype.trim` (the ASCII cases). -/
def isWSChar (c : Char) : Bool :=
  c == ' ' || c == '\t' || c == '\n' || c == '\r'

/-- JS `String.prototype.trim()`: strip leading and trailing whitespace.
Defined over the character list so that it evaluates inside the kernel. -/
def jsTrim (s : String) : String :=
  ⟨((s.data.dropWhile isWSChar).reverse.dropWhile isWSChar).reverse⟩

/-- ASCII lower-casing of one character, the fragment of
`String.prototype.toLowerCase` exercised by the word list. -/
def lowerChar (c : Char) : Char :=
  if 65 ≤ c.toNat ∧ c.toNat ≤ 90 then Char.ofNat (c.toNat + 32) else c

/-- JS `String.prototype.toLowerCase()` (ASCII fragment). -/
def jsToLower (s : String) : String :=
  ⟨s.data.map lowerChar⟩

/-- JS `String.prototype.slice(0, n)`. -/
def jsSlice (s : String) (n : Nat) : String :=
  ⟨s.data.take n⟩

/-- The deterministic fallback name: `` `Player_${socket.id.slice(0, 4)}` ``. -/
def fallbackName (sid : String) : String :=
  "Player_" ++ jsSlice sid 4

/-- JS `a || b` where `a` is an optionally-present string (`undefined` or the
empty string are falsy). -/
def jsOr (a : Option String) (b : String) : String :=
  match a with
  | some t => if t = "" then b else t
  | none => b

/-- The name credited to an inbound chat/guess:
`from || users[socket.id] || fallback`. -/
def creditedName (sender : Option String) (sid : String)
    (users : List (String × String)) : String :=
  jsOr sender (jsOr (alGet sid users) (fallbackName sid))

/-- Outbound notifications (`io.emit` / `socket.emit`).  Constructors whose
name starts with `sys` stand for the fixed `chatMessage` texts sent with
`from: "System"`, carrying the interpolated data. -/
inductive Emit where
  | chatMessage (sender text : String)
  | sysWelcome (name : String)
  | sysJoined (name : String)
  | sysLeft (name : String)
  | sysDrawerLeft (name : String)
  | sysNotEnoughPlayers
  | sysCountdownStart
  | sysSessionStart
  | sysDrawing (drawerName : String)
  | sysRoundEndGuessed (word : String)
  | sysTimesUp (word : String)
  | sysCorrectGuess (player : String) (drawerName : Option String)
  | sysWinner (winner : String) (points : Int)
  | sysTopRank (rank : Nat) (name : String) (points : Int)
  | userList (names : List String)
  | scoreUpdate (scores : List (String × Int))
  | gameStateE (active : Bool) (drawerName : Option String) (hasWord : Bool)
      (timeRemaining sessionTimeRemaining : Int)
  | clearBoard
  | yourWord (target word : String)
  | countdownE (seconds : Int)
  | remoteStroke (payload : String)
  | sessionEnded (winner : Option String) (finalScores leaderboard : List (String × Int))
  deriving Repr, DecidableEq

/-- Anonymous `setTimeout` callbacks that keep no cancellable handle. -/
inductive Sched where
  | intermission (delayMs : Int)
  | scoreReset (delayMs : Int)
  deriving Repr, DecidableEq

/-- The module-level mutable game state of the server. -/
structure GameState where
  users : List (String × String)
  scores : List (String × Int)
  currentDrawer : Option String
  currentWord : Option String
  gameActive : Bool
  roundTimer : Option Nat
  sessionTimer : Option Nat
  countdownTimer : Option Nat
  countdownVal : Int
  roundStartTime : Option Int
  roundEndTime : Option Int
  sessionStartTime : Option Int
  nextGen : Nat
  deriving Repr, DecidableEq

def initState : GameState :=
  { users := [], scores := [], currentDrawer := none, currentWord := none,
    gameActive := false, roundTimer := none, sessionTimer := none,
    countdownTimer := none, countdownVal := 0, roundStartTime := none,
    roundEndTime := none, sessionStartTime := none, nextGen := 0 }

abbrev StepResult := GameState × List Emit × List Sched

/-- Embeds `broadcastGameState()`. -/
def gameStateEmit (now : Int) (s : GameState) : Emit :=
  let drawerName := s.currentDrawer.bind (fun d => alGet d s.users)
  let timeRemaining :=
    match s.roundEndTime with
    | some e => max 0 (e - now)
    | none => 0
  let sessionRemaining :=
    match s.sessionStartTime with
    | some t => max 0 (SESSION_DURATION - (now - t))
    | none => 0
  Emit.gameStateE s.gameActive drawerName s.currentWord.isSome
    (timeRemaining / 1000) (sessionRemaining / 1000)

/-- JS `Array.prototype.indexOf`, with `-1` represented as `none`. -/
def jsIndexOf (d : String) : List String → Option Nat
  | [] => none
  | x :: rest => if x = d then some 0 else (jsIndexOf d rest).map (· + 1)

/-- Embeds `getNextDrawer()`: round-robin over `Object.keys(users)`.  JS `indexOf`
yields `-1` when `currentDrawer` is `null` or absent, and `(-1 + 1) %
length = 0`, so `nextIndex` is `0` in those cases. -/
def getNextDrawer (users : List (String × String))
    (currentDrawer : Option String) : Option String :=
  let socketIds := users.map Prod.fst
  if socketIds.isEmpty then none
  else
    let nextIndex :=
      match currentDrawer with
      | none => 0
      | some d =>
        match jsIndexOf d socketIds with
        | some i => (i + 1) % socketIds.length
        | none => 0
    socketIds[nextIndex]?

/-- Stable insertion of one entry into a list already sorted by descending
points. -/
def insertDesc (p : String × Int) : List (String × Int) → List (String × Int)
  | [] => [p]
  | q :: rest => if p.2 < q.2 then q :: insertDesc p rest else p :: q :: rest

/-- Embeds `Object.entries(scores).sort((a, b) => b[1] - a[1])`: a stable sort by
descending points (JS `Array.prototype.sort` is stable). -/
def sortScoresDesc : List (String × Int) → List (String × Int)
  | [] => []
  | p :: rest => insertDesc p (sortScoresDesc rest)

/-- Embeds `startNewRound()`.  In the `!currentDrawer` branch the assignment
`currentDrawer = getNextDrawer()` has already stored `null`. -/
def startNewRound (now : Int) (k : Nat) (s : GameState) : StepResult :=
  match getNextDrawer s.users s.currentDrawer with
  | none => ({ s with currentDrawer := none }, [], [])
  | some d =>
    let w := selectRandomWord k
    let s1 : GameState :=
      { s with currentDrawer := some d, currentWord := some w,
               roundStartTime := some now, roundEndTime := some (now + ROUND_DURATION),
               roundTimer := some s.nextGen, nextGen := s.nextGen + 1 }
    let drawerName := (alGet d s.users).getD ""
    (s1, [Emit.clearBoard, Emit.sysDrawing drawerName, Emit.yourWord d w,
          gameStateEmit now s1], [])

/-- Embeds `startSession()`: stamps the session start, marks the game active, starts
the first round, and arms the session-end timer. -/
def startSession (now : Int) (k : Nat) (s : GameState) : StepResult :=
  let s1 := { s with sessionStartTime := some now, gameActive := true }
  let r := startNewRound now k s1
  let s2 := { r.1 with sessionTimer := some r.1.nextGen, nextGen := r.1.nextGen + 1 }
  (s2, Emit.sysSessionStart :: r.2.1, r.2.2)

/-- Embeds `endSession()`: cancels every tracked timer, clears round/session state,
broadcasts the leaderboard ceremony, and schedules the 10000 ms score reset. -/
def endSession (now : Int) (s : GameState) : StepResult :=
  let s1 : GameState :=
    { s with roundTimer := none, sessionTimer := none, countdownTimer := none,
             gameActive := false, currentDrawer := none, currentWord := none,
             roundStartTime := none, roundEndTime := none, sessionStartTime := none }
  let sorted := sortScoresDesc s.scores
  let ceremony : List Emit :=
    match sorted with
    | [] => [Emit.sessionEnded none [] []]
    | (w, ws) :: _ =>
        [Emit.sessionEnded (some w) s.scores sorted, Emit.sysWinner w ws]
          ++ (sorted.take 3).enum.map (fun p => Emit.sysTopRank (p.1 + 1) p.2.1 p.2.2)
  (s1, ceremony ++ [Emit.clearBoard, gameStateEmit now s1], [Sched.scoreReset 10000])

/-- Embeds `endRound(someoneGuessed)`.  Always cancels the round timer first; returns
early when no word is set; otherwise announces the word, clears round state,
then either ends the expired session or schedules the 5000 ms intermission. -/
def endRound (now : Int) (guessed : Bool) (s : GameState) : StepResult :=
  let s0 := { s with roundTimer := none }
  match s0.currentWord with
  | none => (s0, [], [])
  | some w =>
    let e1 := if guessed then Emit.sysRoundEndGuessed w else Emit.sysTimesUp w
    let s1 := { s0 with currentWord := none, roundStartTime := none, roundEndTime := none }
    match s1.gameActive, s1.sessionStartTime with
    | true, some t =>
        if SESSION_DURATION - (now - t) ≤ 0 then
          let r := endSession now s1
          (r.1, e1 :: r.2.1, r.2.2)
        else (s1, [e1], [Sched.intermission 5000])
    | _, _ => (s1, [e1], [])

/-- Body of the anonymous 5000 ms intermission `setTimeout` inside
`endRound`: the player count and the session flag are re-checked at fire
time, with threshold `playerCount >= 1`. -/
def intermissionBody (now : Int) (k : Nat) (s : GameState) : StepResult :=
  let playerCount := s.users.length
  if 1 ≤ playerCount ∧ s.gameActive = true then startNewRound now k s
  else if playerCount < 1 then endSession now s
  else (s, [], [])

/-- Body of the 10000 ms score-reset `setTimeout` inside `endSession`:
`scores = {}` then `broadcastScores()`. -/
def scoreResetBody (s : GameState) : StepResult :=
  ({ s with scores := [] }, [Emit.scoreUpdate []], [])

/-- Embeds `startCountdown()`: any previous countdown interval is cleared, the
counter is reset to 20, the first tick is emitted, and a fresh interval
handle is armed. -/
def startCountdown (s : GameState) : StepResult :=
  let s1 := { s with countdownVal := 20, countdownTimer := some s.nextGen,
                     nextGen := s.nextGen + 1 }
  (s1, [Emit.countdownE 20], [])

/-- Body of one countdown interval tick: decrement, announce, and at zero
clear the interval and start the session. -/
def countdownTickBody (now : Int) (k : Nat) (s : GameState) : StepResult :=
  let c := s.countdownVal - 1
  let s1 := { s with countdownVal := c }
  if c ≤ 0 then
    let s2 := { s1 with countdownTimer := none }
    let r := startSession now k s2
    (r.1, Emit.countdownE c :: r.2.1, r.2.2)
  else (s1, [Emit.countdownE c], [])

/-- Embeds `socket.on("join")`: trims or falls back the name, records the user,
creates a zero score entry when `!scores[n]` (absent or zero), broadcasts
roster and scores, and starts the countdown when the second player arrives
while nothing is running. -/
def joinHandler (sid name : String) (s : GameState) : StepResult :=
  let n := if jsTrim name = "" then fallbackName sid else jsTrim name
  let users1 := alSet sid n s.users
  let scores1 := if (alGet n s.scores).getD 0 = 0 then alSet n 0 s.scores else s.scores
  let s1 := { s with users := users1, scores := scores1 }
  let es := [Emit.userList (users1.map Prod.snd), Emit.scoreUpdate scores1,
             Emit.sysWelcome n, Emit.sysJoined n]
  if users1.length = 2 ∧ s1.gameActive = false ∧ s1.sessionStartTime = none
      ∧ s1.countdownTimer = none then
    let r := startCountdown s1
    (r.1, es ++ [Emit.sysCountdownStart] ++ r.2.1, r.2.2)
  else (s1, es, [])

/-- Embeds `socket.on("chat")`: broadcast verbatim; no emptiness check. -/
def chatHandler (sid : String) (sender : Option String) (text : String)
    (s : GameState) : StepResult :=
  (s, [Emit.chatMessage (creditedName sender sid s.users) text], [])

/-- The Score Board update of a successful guess: `scores[player] += 10`,
then `scores[drawerName] += 5` when `users[currentDrawer]` yields a truthy
(present and non-empty) display name. -/
def guessAwardScores (player : String) (drawerName : Option String)
    (scores : List (String × Int)) : List (String × Int) :=
  let scores1 := alSet player ((alGet player scores).getD 0 + 10) scores
  match drawerName with
  | some dn => if dn = "" then scores1
               else alSet dn ((alGet dn scores1).getD 0 + 5) scores1
  | none => scores1

/-- Embeds `socket.on("guess")`. -/
def guessHandler (sid : String) (sender : Option String) (text : String)
    (now : Int) (s : GameState) : StepResult :=
  let guessText := jsTrim text
  let player := creditedName sender sid s.users
  if guessText = "" then (s, [], [])
  else if s.currentDrawer = some sid then (s, [Emit.chatMessage player guessText], [])
  else
    match s.gameActive, s.currentWord with
    | true, some w =>
      if jsToLower guessText = jsToLower w then
        let drawerName := s.currentDrawer.bind (fun d => alGet d s.users)
        let scores2 := guessAwardScores player drawerName s.scores
        let s1 := { s with scores := scores2 }
        let r := endRound now true s1
        (r.1, [Emit.chatMessage player guessText,
               Emit.sysCorrectGuess player drawerName,
               Emit.scoreUpdate scores2] ++ r.2.1, r.2.2)
      else (s, [Emit.chatMessage player guessText], [])
    | _, _ => (s, [Emit.chatMessage player guessText], [])

/-- Embeds `socket.on("stroke")`: relayed only when the sender is the drawer and the
payload has `from` and `to` fields (`valid`). -/
def strokeHandler (sid payload : String) (valid : Bool) (s : GameState) : StepResult :=
  if s.currentDrawer = some sid then
    if valid then (s, [Emit.remoteStroke payload], []) else (s, [], [])
  else (s, [], [])

/-- Embeds `socket.on("clear")`. -/
def clearHandler (sid : String) (s : GameState) : StepResult :=
  if s.currentDrawer = some sid then (s, [Emit.clearBoard], []) else (s, [], [])

/-- Embeds `socket.on("disconnect")`: known users only; the drawer leaving ends the
round before the roster entry is deleted; an empty roster while the game is
active ends the session. -/
def disconnectHandler (sid : String) (now : Int) (s : GameState) : StepResult :=
  match alGet sid s.users with
  | none => (s, [], [])
  | some name =>
    let r1 : StepResult :=
      if s.currentDrawer = some sid ∧ s.gameActive = true then
        let r := endRound now false s
        (r.1, Emit.sysDrawerLeft name :: r.2.1, r.2.2)
      else (s, [Emit.sysLeft name], [])
    let s2 := { r1.1 with users := alRemove sid r1.1.users }
    let es2 := r1.2.1 ++ [Emit.userList (s2.users.map Prod.snd)]
    if s2.users.length < 1 ∧ s2.gameActive = true then
      let r3 := endSession now s2
      (r3.1, es2 ++ r3.2.1, r1.2.2 ++ r3.2.2)
    else (s2, es2, r1.2.2)

/-- Embeds `socket.on("leaveGame")`: like disconnect but announces the departure
first and posts a chat notice before ending the session. -/
def leaveGameHandler (sid : String) (now : Int) (s : GameState) : StepResult :=
  match alGet sid s.users with
  | none => (s, [], [])
  | some name =>
    let r1 : StepResult :=
      if s.currentDrawer = some sid ∧ s.gameActive = true then
        let r := endRound now false s
        (r.1, [Emit.sysLeft name, Emit.sysDrawerLeft name] ++ r.2.1, r.2.2)
      else (s, [Emit.sysLeft name], [])
    let s2 := { r1.1 with users := alRemove sid r1.1.users }
    let es2 := r1.2.1 ++ [Emit.userList (s2.users.map Prod.snd)]
    if s2.users.length < 1 ∧ s2.gameActive = true then
      let r3 := endSession now s2
      (r3.1, es2 ++ [Emit.sysNotEnoughPlayers] ++ r3.2.1, r1.2.2 ++ r3.2.2)
    else (s2, es2, r1.2.2)

/-- Inbound events: participant messages plus asynchronous timer re-entries.
Each event carries the `Date.now()` reading and/or random draw that the
corresponding JS callback would observe. -/
inductive Event where
  | join (sid name : String)
  | leaveGame (sid : String) (now : Int)
  | disconnect (sid : String) (now : Int)
  | chat (sid : String) (sender : Option String) (text : String)
  | guess (sid : String) (sender : Option String) (text : String) (now : Int)
  | stroke (sid payload : String) (valid : Bool)
  | clearReq (sid : String)
  | countdownTick (g : Nat) (now : Int) (k : Nat)
  | roundTimerFire (g : Nat) (now : Int)
  | sessionTimerFire (g : Nat) (now : Int)
  | intermissionFire (now : Int) (k : Nat)
  | scoreResetFire
  deriving Repr, DecidableEq

/-- One atomic transition.  A fire event for a cancellable timer runs its
callback only when its generation is still armed (`clearTimeout` semantics). -/
def step (e : Event) (s : GameState) : StepResult :=
  match e with
  | .join sid name => joinHandler sid name s
  | .leaveGame sid now => leaveGameHandler sid now s
  | .disconnect sid now => disconnectHandler sid now s
  | .chat sid sender text => chatHandler sid sender text s
  | .guess sid sender text now => guessHandler sid sender text now s
  | .stroke sid payload valid => strokeHandler sid payload valid s
  | .clearReq sid => clearHandler sid s
  | .countdownTick g now k =>
      if s.countdownTimer = some g then countdownTickBody now k s else (s, [], [])
  | .roundTimerFire g now =>
      if s.roundTimer = some g then endRound now false s else (s, [], [])
  | .sessionTimerFire g now =>
      if s.sessionTimer = some g then endSession now s else (s, [], [])
  | .intermissionFire now k => intermissionBody now k s
  | .scoreResetFire => scoreResetBody s

/-- Final state after a sequence of events. -/
def runState (evs : List Event) (s : GameState) : GameState :=
  evs.foldl (fun t e => (step e t).1) s

/-! ### Association-list lemmas -/

theorem alGet_map_update {α : Type} (k : String) (v : α) (l : List (String × α)) :
    alGet k (l.map fun p => if p.1 = k then (k, v) else p)
      = if alHas k l then some v else none := by
  induction l with
  | nil => simp [alGet, alHas]
  | cons p rest ih =>
    by_cases hp : p.1 = k
    · simp [alGet, alHas, hp]
    · simp [alGet, alHas, hp, ih]

theorem alGet_eq_none_of_not_alHas {α : Type} (k : String) (l : List (String × α))
    (h : alHas k l = false) : alGet k l = none := by
  induction l with
  | nil => simp [alGet]
  | cons p rest ih =>
    simp [alHas] at h
    simp [alGet, h.1, ih h.2]

theorem alGet_append {α : Type} (m : String) (l1 l2 : List (String × α)) :
    alGet m (l1 ++ l2) = ((alGet m l1).or (alGet m l2)) := by
  induction l1 with
  | nil => simp [alGet]
  | cons p rest ih =>
    by_cases hp : p.1 = m
    · simp [alGet, hp]
    · simp [alGet, hp, ih]

theorem alGet_alSet_self {α : Type} (k : String) (v : α) (l : List (String × α)) :
    alGet k (alSet k v l) = some v := by
  unfold alSet
  split
  · rename_i h
    simp [alGet_map_update, h]
  · rename_i h
    simp only [Bool.not_eq_true] at h
    simp [alGet_append, alGet_eq_none_of_not_alHas k l h, alGet]

theorem alGet_map_update_ne {α : Type} {m k : String} (h : m ≠ k) (v : α)
    (l : List (String × α)) :
    alGet m (l.map fun p => if p.1 = k then (k, v) else p) = alGet m l := by
  induction l with
  | nil => simp [alGet]
  | cons p rest ih =>
    by_cases hp : p.1 = k
    · simp [alGet, hp, Ne.symm h, ih]
    · simp [alGet, hp, ih]

theorem alGet_alSet_ne {α : Type} {m k : String} (h : m ≠ k) (v : α)
    (l : List (String × α)) : alGet m (alSet k v l) = alGet m l := by
  unfold alSet
  split
  · exact alGet_map_update_ne h v l
  · simp [alGet_append, alGet, Ne.symm h]

theorem alGet_alSet_isSome {α : Type} (m k : String) (v : α) (l : List (String × α))
    (h : (alGet m l).isSome = true) : (alGet m (alSet k v l)).isSome = true := by
  by_cases hm : m = k
  · subst hm; simp [alGet_alSet_self]
  · rwa [alGet_alSet_ne hm]

theorem mem_snd_alSet {α : Type} {x : α} {k : String} {v : α} {l : List (String × α)}
    (h : x ∈ (alSet k v l).map Prod.snd) : x = v ∨ x ∈ l.map Prod.snd := by
  unfold alSet at h
  split at h
  · simp only [List.map_map, List.mem_map] at h
    obtain ⟨p, hp, hx⟩ := h
    by_cases hpk : p.1 = k
    · simp [Function.comp, hpk] at hx
      exact Or.inl hx.symm
    · simp [Function.comp, hpk] at hx
      exact Or.inr (hx ▸ List.mem_map_of_mem Prod.snd hp)
  · simp only [List.map_append, List.mem_append, List.map_cons, List.map_nil,
      List.mem_singleton] at h
    rcases h with h | h
    · exact Or.inr h
    · exact Or.inl h

theorem mem_snd_alRemove {α : Type} {x : α} {k : String} {l : List (String × α)}
    (h : x ∈ (alRemove k l).map Prod.snd) : x ∈ l.map Prod.snd := by
  unfold alRemove at h
  simp only [List.mem_map] at h ⊢
  obtain ⟨p, hp, hx⟩ := h
  exact ⟨p, List.mem_of_mem_filter hp, hx⟩

/-! ### Sorting lemmas (descending leaderboard sort) -/

/-- The leaderboard order: points are non-increasing. -/
def scoreGe (a b : String × Int) : Prop := b.2 ≤ a.2

theorem perm_insertDesc (p : String × Int) (l : List (String × Int)) :
    List.Perm (insertDesc p l) (p :: l) := by
  induction l with
  | nil => simp [insertDesc]
  | cons q rest ih =>
    unfold insertDesc
    split
    · exact ((ih.cons q).trans (List.Perm.swap p q rest))
    · exact List.Perm.refl _

theorem sortScoresDesc_perm (l : List (String × Int)) :
    List.Perm (sortScoresDesc l) l := by
  induction l with
  | nil => simp [sortScoresDesc]
  | cons p rest ih =>
    exact (perm_insertDesc p (sortScoresDesc rest)).trans (ih.cons p)

theorem sorted_insertDesc (p : String × Int) (l : List (String × Int))
    (h : l.Pairwise scoreGe) : (insertDesc p l).Pairwise scoreGe := by
  induction l with
  | nil => simp [insertDesc, List.Pairwise]
  | cons q rest ih =>
    rw [List.pairwise_cons] at h
    unfold insertDesc
    split
    · rename_i hlt
      rw [List.pairwise_cons]
      refine ⟨fun b hb => ?_, ih h.2⟩
      rcases List.mem_cons.mp ((perm_insertDesc p rest).mem_iff.mp hb) with hb | hb
      · subst hb
        exact le_of_lt hlt
      · exact h.1 b hb
    · rename_i hge
      push_neg at hge
      refine List.pairwise_cons.mpr ⟨fun b hb => ?_, List.pairwise_cons.mpr h⟩
      rcases List.mem_cons.mp hb with hb | hb
      · subst hb
        exact hge
      · exact le_trans (h.1 b hb) hge

theorem sortScoresDesc_sorted (l : List (String × Int)) :
    (sortScoresDesc l).Pairwise scoreGe := by
  induction l with
  | nil => simp [sortScoresDesc, List.Pairwise]
  | cons p rest ih => exact sorted_insertDesc p (sortScoresDesc rest) ih

theorem sortScoresDesc_head_max (l : List (String × Int)) (q : String × Int)
    (hq : (sortScoresDesc l).head? = some q) :
    ∀ p ∈ l, p.2 ≤ q.2 := by
  intro p hp
  have hperm := sortScoresDesc_perm l
  have hmem : p ∈ sortScoresDesc l := hperm.mem_iff.mpr hp
  cases hsort : sortScoresDesc l with
  | nil => rw [hsort] at hmem; simp at hmem
  | cons q0 rest =>
    rw [hsort] at hq hmem
    simp only [List.head?_cons, Option.some.injEq] at hq
    subst hq
    have := sortScoresDesc_sorted l
    rw [hsort, List.pairwise_cons] at this
    rcases List.mem_cons.mp hmem with hp0 | hp0
    · subst hp0; exact le_refl _
    · exact this.1 p hp0

/-! ### `jsIndexOf` lemmas -/

theorem jsIndexOf_lt_length {d : String} {l : List String} {i : Nat}
    (h : jsIndexOf d l = some i) : i < l.length := by
  induction l generalizing i with
  | nil => simp [jsIndexOf] at h
  | cons x rest ih =>
    unfold jsIndexOf at h
    split at h
    · simp only [Option.some.injEq] at h
      subst h
      simp
    · cases hr : jsIndexOf d rest with
      | none => rw [hr] at h; simp at h
      | some j =>
        rw [hr] at h
        simp only [Option.map_some', Option.some.injEq] at h
        subst h
        have := ih hr
        simp only [List.length_cons]
        omega

theorem jsIndexOf_eq_none_iff (d : String) (l : List String) :
    jsIndexOf d l = none ↔ d ∉ l := by
  induction l with
  | nil => simp [jsIndexOf]
  | cons x rest ih =>
    unfold jsIndexOf
    by_cases hx : x = d
    · simp [hx]
    · cases hr : jsIndexOf d rest with
      | none =>
        simp only [hx, if_false, hr, Option.map_none', true_iff, List.mem_cons]
        rw [hr] at ih
        simp only [true_iff] at ih
        push_neg
        exact ⟨fun hd => hx hd.symm, ih⟩
      | some j =>
        have hdr : d ∈ rest := by
          by_contra hd
          simp [ih.mpr hd] at hr
        simp [hx, hr, hdr]

/-! ### Timer-generation discipline (`clearTimeout` safety) -/

/-- Validity of one stored timer handle against the generation counter: an
armed generation was drawn from the counter before its current value. -/
def genOk (t : Option Nat) (n : Nat) : Prop :=
  match t with
  | none => True
  | some g => g < n

/-- Every armed timer handle was drawn from the counter. -/
def wfTimers (s : GameState) : Prop :=
  genOk s.roundTimer s.nextGen ∧ genOk s.sessionTimer s.nextGen
    ∧ genOk s.countdownTimer s.nextGen

/-- The round-timeout handle `g` is dead: it is no longer armed, and the
generation counter has moved past it, so no later arming can reuse it. -/
def staleRound (g : Nat) (s : GameState) : Prop :=
  s.roundTimer ≠ some g ∧ g < s.nextGen ∧ wfTimers s

theorem genOk_mono {t : Option Nat} {n m : Nat} (hnm : n ≤ m) (h : genOk t n) :
    genOk t m := by
  cases t with
  | none => trivial
  | some g => exact lt_of_lt_of_le h hnm

theorem genOk_none (n : Nat) : genOk none n := trivial

theorem genOk_fresh (n : Nat) : genOk (some n) (n + 1) := Nat.lt_succ_self n

/-! First-component characterisations of the transition functions. -/

theorem endSession_fst (now : Int) (s : GameState) :
    (endSession now s).1 =
      { s with roundTimer := none, sessionTimer := none, countdownTimer := none,
               gameActive := false, currentDrawer := none, currentWord := none,
               roundStartTime := none, roundEndTime := none, sessionStartTime := none } := rfl

theorem startNewRound_fst (now : Int) (k : Nat) (s : GameState) :
    (startNewRound now k s).1 =
      match getNextDrawer s.users s.currentDrawer with
      | none => { s with currentDrawer := none }
      | some d =>
          { s with currentDrawer := some d, currentWord := some (selectRandomWord k),
                   roundStartTime := some now, roundEndTime := some (now + ROUND_DURATION),
                   roundTimer := some s.nextGen, nextGen := s.nextGen + 1 } := by
  unfold startNewRound
  cases getNextDrawer s.users s.currentDrawer <;> rfl

/-! Staleness of a dead round-timer generation is preserved by every
transition: the generation counter only grows, and a fresh arming always
draws a generation strictly beyond every previously armed one. -/

theorem staleRound_endSession (g : Nat) (now : Int) (s : GameState)
    (h : staleRound g s) : staleRound g (endSession now s).1 := by
  obtain ⟨-, h2, -⟩ := h
  rw [endSession_fst]
  exact ⟨by simp, h2, genOk_none _, genOk_none _, genOk_none _⟩

theorem staleRound_startNewRound (g : Nat) (now : Int) (k : Nat) (s : GameState)
    (h : staleRound g s) : staleRound g (startNewRound now k s).1 := by
  obtain ⟨h1, h2, w1, w2, w3⟩ := h
  rw [startNewRound_fst]
  cases getNextDrawer s.users s.currentDrawer with
  | none => exact ⟨h1, h2, w1, w2, w3⟩
  | some d =>
    refine ⟨?_, ?_, ?_, ?_, ?_⟩
    · show some s.nextGen ≠ some g
      intro hc
      injection hc with hc
      omega
    · show g < s.nextGen + 1
      omega
    · exact genOk_fresh _
    · exact genOk_mono (Nat.le_succ _) w2
    · exact genOk_mono (Nat.le_succ _) w3

theorem staleRound_startSession (g : Nat) (now : Int) (k : Nat) (s : GameState)
    (h : staleRound g s) : staleRound g (startSession now k s).1 := by
  have h1 : staleRound g { s with sessionStartTime := some now, gameActive := true } := h
  have h2 := staleRound_startNewRound g now k _ h1
  obtain ⟨a1, a2, w1, w2, w3⟩ := h2
  refine ⟨a1, by show g < _ + 1; omega, genOk_mono (Nat.le_succ _) w1, genOk_fresh _,
    genOk_mono (Nat.le_succ _) w3⟩

theorem endRound_fst_cases (now : Int) (b : Bool) (s : GameState) :
    (s.currentWord = none ∧ (endRound now b s).1 = { s with roundTimer := none }) ∨
    (endRound now b s).1 =
      { s with roundTimer := none, currentWord := none,
               roundStartTime := none, roundEndTime := none } ∨
    (endRound now b s).1 =
      (endSession now { s with roundTimer := none, currentWord := none,
                               roundStartTime := none, roundEndTime := none }).1 := by
  unfold endRound
  dsimp only
  split
  · rename_i hw
    exact Or.inl ⟨hw, rfl⟩
  · split
    · split
      · exact Or.inr (Or.inr rfl)
      · exact Or.inr (Or.inl rfl)
    all_goals exact Or.inr (Or.inl rfl)

theorem staleRound_endRound (g : Nat) (now : Int) (b : Bool) (s : GameState)
    (h : staleRound g s) : staleRound g (endRound now b s).1 := by
  obtain ⟨h1, h2, w1, w2, w3⟩ := h
  rcases endRound_fst_cases now b s with ⟨-, hc⟩ | hc | hc <;> rw [hc]
  · exact ⟨by simp, h2, genOk_none _, w2, w3⟩
  · exact ⟨by simp, h2, genOk_none _, w2, w3⟩
  · exact staleRound_endSession g now _ ⟨by simp, h2, genOk_none _, w2, w3⟩

theorem staleRound_countdownTickBody (g : Nat) (now : Int) (k : Nat) (s : GameState)
    (h : staleRound g s) : staleRound g (countdownTickBody now k s).1 := by
  unfold countdownTickBody
  dsimp only
  split
  · exact staleRound_startSession g now k _
      (show staleRound g { s with countdownVal := s.countdownVal - 1, countdownTimer := none }
       from ⟨h.1, h.2.1, h.2.2.1, h.2.2.2.1, genOk_none _⟩)
  · exact h

theorem staleRound_startCountdown (g : Nat) (s : GameState)
    (h : staleRound g s) : staleRound g (startCountdown s).1 := by
  obtain ⟨h1, h2, w1, w2, w3⟩ := h
  exact ⟨h1, by show g < s.nextGen + 1; omega, genOk_mono (Nat.le_succ _) w1,
    genOk_mono (Nat.le_succ _) w2, genOk_fresh _⟩

theorem staleRound_joinHandler (g : Nat) (sid name : String) (s : GameState)
    (h : staleRound g s) : staleRound g (joinHandler sid name s).1 := by
  unfold joinHandler
  dsimp only
  split <;> split <;> split <;>
    first
      | exact staleRound_startCountdown g _ h
      | exact h

theorem staleRound_guessHandler (g : Nat) (sid : String) (sender : Option String)
    (text : String) (now : Int) (s : GameState)
    (h : staleRound g s) : staleRound g (guessHandler sid sender text now s).1 := by
  unfold guessHandler
  dsimp only
  split
  · exact h
  split
  · exact h
  split
  · split
    · exact staleRound_endRound g now true _ h
    · exact h
  all_goals exact h

theorem staleRound_intermissionBody (g : Nat) (now : Int) (k : Nat) (s : GameState)
    (h : staleRound g s) : staleRound g (intermissionBody now k s).1 := by
  unfold intermissionBody
  dsimp only
  split
  · exact staleRound_startNewRound g now k s h
  split
  · exact staleRound_endSession g now s h
  · exact h

theorem staleRound_disconnectHandler (g : Nat) (sid : String) (now : Int) (s : GameState)
    (h : staleRound g s) : staleRound g (disconnectHandler sid now s).1 := by
  unfold disconnectHandler
  cases alGet sid s.users with
  | none => exact h
  | some name =>
    dsimp only
    split
    · split
      · exact staleRound_endSession g now _ (staleRound_endRound g now false s h)
      · exact staleRound_endRound g now false s h
    · split
      · exact staleRound_endSession g now _ h
      · exact h

theorem staleRound_leaveGameHandler (g : Nat) (sid : String) (now : Int) (s : GameState)
    (h : staleRound g s) : staleRound g (leaveGameHandler sid now s).1 := by
  unfold leaveGameHandler
  cases alGet sid s.users with
  | none => exact h
  | some name =>
    dsimp only
    split
    · split
      · exact staleRound_endSession g now _ (staleRound_endRound g now false s h)
      · exact staleRound_endRound g now false s h
    · split
      · exact staleRound_endSession g now _ h
      · exact h

theorem staleRound_step (g : Nat) (e : Event) (s : GameState)
    (h : staleRound g s) : staleRound g (step e s).1 := by
  cases e with
  | join sid name => exact staleRound_joinHandler g sid name s h
  | leaveGame sid now => exact staleRound_leaveGameHandler g sid now s h
  | disconnect sid now => exact staleRound_disconnectHandler g sid now s h
  | chat sid sender text => exact h
  | guess sid sender text now => exact staleRound_guessHandler g sid sender text now s h
  | stroke sid payload valid =>
    show staleRound g (strokeHandler sid payload valid s).1
    unfold strokeHandler
    split
    · split <;> exact h
    · exact h
  | clearReq sid =>
    show staleRound g (clearHandler sid s).1
    unfold clearHandler
    split <;> exact h
  | countdownTick g2 now k =>
    show staleRound g (if s.countdownTimer = some g2 then countdownTickBody now k s
      else (s, [], [])).1
    split
    · exact staleRound_countdownTickBody g now k s h
    · exact h
  | roundTimerFire g2 now =>
    show staleRound g (if s.roundTimer = some g2 then endRound now false s
      else (s, [], [])).1
    split
    · exact staleRound_endRound g now false s h
    · exact h
  | sessionTimerFire g2 now =>
    show staleRound g (if s.sessionTimer = some g2 then endSession now s
      else (s, [], [])).1
    split
    · exact staleRound_endSession g now s h
    · exact h
  | intermissionFire now k => exact staleRound_intermissionBody g now k s h
  | scoreResetFire => exact h

theorem staleRound_runState (g : Nat) (evs : List Event) (s : GameState)
    (h : staleRound g s) : staleRound g (runState evs s) := by
  induction evs generalizing s with
  | nil => exact h
  | cons e rest ih => exact ih _ (staleRound_step g e s h)

/-- A fire event for a round-timer generation that is not armed is a complete
no-op: the state is unchanged and nothing is emitted or scheduled. -/
theorem roundTimerFire_noop (g : Nat) (now : Int) (s : GameState)
    (h : s.roundTimer ≠ some g) :
    step (Event.roundTimerFire g now) s = (s, [], []) := by
  simp [step, h]

/-- Ending a round kills its armed round-timer generation for good. -/
theorem staleRound_after_endRound (g : Nat) (now : Int) (b : Bool) (s : GameState)
    (hwf : wfTimers s) (harm : s.roundTimer = some g) :
    staleRound g (endRound now b s).1 := by
  have hg : g < s.nextGen := by
    have := hwf.1
    rw [harm] at this
    exact this
  rcases endRound_fst_cases now b s with ⟨-, hc⟩ | hc | hc <;> rw [hc]
  · exact ⟨by simp, hg, genOk_none _, hwf.2.1, hwf.2.2⟩
  · exact ⟨by simp, hg, genOk_none _, hwf.2.1, hwf.2.2⟩
  · exact staleRound_endSession g now _ ⟨by simp, hg, genOk_none _, hwf.2.1, hwf.2.2⟩

/-! Further `endRound` field facts. -/

theorem endRound_currentWord (now : Int) (b : Bool) (s : GameState) :
    (endRound now b s).1.currentWord = none := by
  rcases endRound_fst_cases now b s with ⟨hw, hc⟩ | hc | hc <;> rw [hc] <;>
    first
      | rfl
      | exact hw

theorem endRound_scores (now : Int) (b : Bool) (s : GameState) :
    (endRound now b s).1.scores = s.scores := by
  rcases endRound_fst_cases now b s with ⟨-, hc⟩ | hc | hc <;> rw [hc] <;> rfl

theorem endRound_users (now : Int) (b : Bool) (s : GameState) :
    (endRound now b s).1.users = s.users := by
  rcases endRound_fst_cases now b s with ⟨-, hc⟩ | hc | hc <;> rw [hc] <;> rfl

theorem endRound_currentDrawer (now : Int) (b : Bool) (s : GameState) :
    (endRound now b s).1.currentDrawer = s.currentDrawer ∨
    (endRound now b s).1.currentDrawer = none := by
  rcases endRound_fst_cases now b s with ⟨-, hc⟩ | hc | hc <;> rw [hc]
  · exact Or.inl rfl
  · exact Or.inl rfl
  · exact Or.inr rfl

/-- The round-end announcement carrying the revealed word is always emitted
when a word was set, with the wording selected by `someoneGuessed`. -/
theorem endRound_emits (now : Int) (b : Bool) (s : GameState) (w : String)
    (hw : s.currentWord = some w) :
    (if b then Emit.sysRoundEndGuessed w else Emit.sysTimesUp w) ∈ (endRound now b s).2.1 := by
  unfold endRound
  dsimp only
  split
  · rename_i hn
    rw [hn] at hw
    exact Option.noConfusion hw
  · rename_i w2 hw2
    rw [hw2] at hw
    injection hw with hw
    subst hw
    split
    · split
      · exact List.mem_cons_self _ _
      · exact List.mem_cons_self _ _
    all_goals exact List.mem_cons_self _ _

/-- C1: for every execution in which a round ends — `endRound` is the single
exit point for guessed rounds, timeouts and drawer departures — the
round-timeout timer that was armed for that round (`roundTimer = some g`) has
no observable effect afterwards: whatever events follow (including the start
of newer rounds), firing generation `g` leaves the state unchanged and emits
and schedules nothing, so there is no duplicate announcement, no score award,
and no early end of any newer round. -/
theorem C1_stale_round_timer_no_effect (s : GameState) (g : Nat)
    (now fnow : Int) (b : Bool) (evs : List Event)
    (hwf : wfTimers s) (harm : s.roundTimer = some g) :
    step (Event.roundTimerFire g fnow) (runState evs (endRound now b s).1)
      = (runState evs (endRound now b s).1, [], []) :=
  roundTimerFire_noop g fnow _
    (staleRound_runState g evs _ (staleRound_after_endRound g now b s hwf harm)).1

/-- A concrete mid-round state: two players, round one armed with timer
generation 0. -/
def midRoundState : GameState :=
  { users := [("s1", "Ann"), ("s2", "Ben")], scores := [("Ann", 0), ("Ben", 0)],
    currentDrawer := some "s1", currentWord := some "cat", gameActive := true,
    roundTimer := some 0, sessionTimer := none, countdownTimer := none,
    countdownVal := 0, roundStartTime := some 0, roundEndTime := some 120000,
    sessionStartTime := some 0, nextGen := 1 }

/-- C1 witness: ending the round by a correct guess and then letting the
intermission start a newer round; the old generation-0 timer fire is a
no-op. -/
theorem C1_witness :
    step (Event.roundTimerFire 0 999999)
        (runState [Event.intermissionFire 10000 2] (endRound 10000 true midRoundState).1)
      = (runState [Event.intermissionFire 10000 2] (endRound 10000 true midRoundState).1,
         [], []) :=
  C1_stale_round_timer_no_effect midRoundState 0 10000 999999 true
    [Event.intermissionFire 10000 2] ⟨Nat.one_pos, trivial, trivial⟩ rfl

theorem endRound_roundTimer (now : Int) (b : Bool) (s : GameState) :
    (endRound now b s).1.roundTimer = none := by
  rcases endRound_fst_cases now b s with ⟨-, hc⟩ | hc | hc <;> rw [hc] <;> rfl

/-- A concrete mid-round state for the C2 counterexample: drawer `s1` is
drawing `cat`. -/
def c2state : GameState :=
  { users := [("s1", "Ann"), ("s2", "Ben")], scores := [("Ann", 0), ("Ben", 0)],
    currentDrawer := some "s1", currentWord := some "cat", gameActive := true,
    roundTimer := some 0, sessionTimer := none, countdownTimer := none,
    countdownVal := 0, roundStartTime := some 0, roundEndTime := some 120000,
    sessionStartTime := some 0, nextGen := 1 }

/-- C2 counterexample: ending an active round clears the word but does not
clear the drawer id — `endRound` leaves `currentDrawer` at `some "s1"`. -/
theorem C2_counterexample :
    (endRound 5000 true c2state).1.currentWord = none ∧
    (endRound 5000 true c2state).1.currentDrawer = some "s1" :=
  ⟨rfl, rfl⟩

/-- C2 (amended): every way a round ends goes through `endRound`, which always
clears the word of the round and cancels the round timer before any new round can
start — but it retains `drawerId` (`currentDrawer`), which seeds the next
rotation; the drawer id is cleared only when the whole session ends.  A
single `currentWord`/`currentDrawer` cell holds the round, so at most one
round is active at any instant. -/
theorem C2_endRound_clears_word_not_drawer (now : Int) (b : Bool) (s : GameState) :
    (endRound now b s).1.currentWord = none ∧
    (endRound now b s).1.roundTimer = none ∧
    ((endRound now b s).1.currentDrawer = s.currentDrawer ∨
     (endRound now b s).1.currentDrawer = none) :=
  ⟨endRound_currentWord now b s, endRound_roundTimer now b s, endRound_currentDrawer now b s⟩

/-- C4: a guess event whose sender socket is the current drawer never changes
any state — the Score Board is untouched and the round is not ended, even
when the text matches the word of an active round — and it is treated as
plain chat only: its sole emission is the chat broadcast of the trimmed text
(nothing at all when the trimmed text is empty), and nothing is scheduled. -/
theorem C4_drawer_guess_chat_only (s : GameState) (sid : String)
    (sender : Option String) (text : String) (now : Int)
    (h : s.currentDrawer = some sid) :
    guessHandler sid sender text now s
      = (s, if jsTrim text = "" then []
            else [Emit.chatMessage (creditedName sender sid s.users) (jsTrim text)], []) := by
  unfold guessHandler
  dsimp only
  by_cases ht : jsTrim text = ""
  · simp only [if_pos ht]
  · simp only [if_neg ht, if_pos h]

/-- C4 witness: the drawer of `c2state` submits the exact word of the active
round; the state is unchanged and only a chat broadcast is emitted. -/
theorem C4_witness :
    guessHandler "s1" none "cat" 777 c2state
      = (c2state, [Emit.chatMessage "Ann" "cat"], []) :=
  C4_drawer_guess_chat_only c2state "s1" none "cat" 777 rfl

/-! ### `getNextDrawer` specification -/

theorem getNextDrawer_spec (users : List (String × String)) (cur : Option String) :
    (getNextDrawer users cur = none ↔ users = []) ∧
    (∀ r, getNextDrawer users cur = some r → r ∈ users.map Prod.fst) ∧
    ((∀ d, cur = some d → jsIndexOf d (users.map Prod.fst) = none) →
      getNextDrawer users cur = (users.map Prod.fst).head?) ∧
    (∀ d i, cur = some d → jsIndexOf d (users.map Prod.fst) = some i →
      getNextDrawer users cur = (users.map Prod.fst)[(i + 1) % users.length]?) := by
  by_cases he : (users.map Prod.fst).isEmpty
  · have hu : users = [] := List.map_eq_nil_iff.mp (List.isEmpty_iff.mp he)
    subst hu
    refine ⟨by simp [getNextDrawer], ?_, ?_, ?_⟩
    · intro r hr
      simp [getNextDrawer] at hr
    · intro _
      simp [getNextDrawer]
    · intro d i _ hidx
      simp [jsIndexOf] at hidx
  · have hlen : 0 < (users.map Prod.fst).length := by
      cases hm : users.map Prod.fst with
      | nil => rw [hm] at he; simp at he
      | cons x t => simp
    have hidxlt : ∀ nextIndex, nextIndex < (users.map Prod.fst).length →
        ∃ r, (users.map Prod.fst)[nextIndex]? = some r := by
      intro nextIndex hn
      exact ⟨(users.map Prod.fst)[nextIndex], List.getElem?_eq_getElem hn⟩
    refine ⟨?_, ?_, ?_, ?_⟩
    · constructor
      · intro hnone
        unfold getNextDrawer at hnone
        rw [if_neg (by simp [he])] at hnone
        rcases cur with - | d
        · obtain ⟨r, hr⟩ := hidxlt 0 hlen
          dsimp only at hnone
          rw [hr] at hnone
          exact Option.noConfusion hnone
        · dsimp only at hnone
          rcases hj : jsIndexOf d (users.map Prod.fst) with - | i
          · rw [hj] at hnone
            obtain ⟨r, hr⟩ := hidxlt 0 hlen
            rw [hr] at hnone
            exact Option.noConfusion hnone
          · rw [hj] at hnone
            obtain ⟨r, hr⟩ := hidxlt ((i + 1) % (users.map Prod.fst).length)
              (Nat.mod_lt _ hlen)
            rw [hr] at hnone
            exact Option.noConfusion hnone
      · intro hu
        subst hu
        simp [getNextDrawer]
    · intro r hr
      unfold getNextDrawer at hr
      rw [if_neg (by simp [he])] at hr
      exact List.getElem?_mem hr
    · intro habs
      unfold getNextDrawer
      rw [if_neg (by simp [he])]
      rcases cur with - | d
      · dsimp only
        exact (List.head?_eq_getElem? _).symm
      · dsimp only
        rw [habs d rfl]
        exact (List.head?_eq_getElem? _).symm
    · intro d i hcur hidx
      subst hcur
      unfold getNextDrawer
      rw [if_neg (by simp [he])]
      dsimp only
      rw [hidx, List.length_map]

/-- C5: `getNextDrawer` returns none exactly when the roster is empty; any
returned id is a member of the current roster; when the rotation seed is
absent (`indexOf` is `-1`) it returns the first participant; and when the
seed sits at index `i` it returns the participant at `(i + 1) mod size`,
i.e. the one immediately following in insertion order, wrapping around. -/
theorem C5_getNextDrawer_correct (users : List (String × String)) (cur : Option String) :
    (getNextDrawer users cur = none ↔ users = []) ∧
    (∀ r, getNextDrawer users cur = some r → r ∈ users.map Prod.fst) ∧
    ((∀ d, cur = some d → jsIndexOf d (users.map Prod.fst) = none) →
      getNextDrawer users cur = (users.map Prod.fst).head?) ∧
    (∀ d i, cur = some d → jsIndexOf d (users.map Prod.fst) = some i →
      getNextDrawer users cur = (users.map Prod.fst)[(i + 1) % users.length]?) :=
  getNextDrawer_spec users cur

/-- C5 witness: in a three-member roster with the drawer at the last index,
rotation wraps to the first member, which is indeed a roster member. -/
theorem C5_witness :
    getNextDrawer [("a", "A"), ("b", "B"), ("c", "C")] (some "c")
        = ([("a", "A"), ("b", "B"), ("c", "C")].map Prod.fst)[(2 + 1) % 3]? ∧
    "a" ∈ [("a", "A"), ("b", "B"), ("c", "C")].map Prod.fst :=
  ⟨(C5_getNextDrawer_correct [("a", "A"), ("b", "B"), ("c", "C")] (some "c")).2.2.2
      "c" 2 rfl (by decide),
   (C5_getNextDrawer_correct [("a", "A"), ("b", "B"), ("c", "C")] (some "c")).2.1
      "a" (by decide)⟩

/-! ### Session-end leaderboard -/

theorem endSession_emits_leaderboard (now : Int) (s : GameState) :
    Emit.sessionEnded ((sortScoresDesc s.scores).head?.map Prod.fst) s.scores
        (sortScoresDesc s.scores) ∈ (endSession now s).2.1 := by
  unfold endSession
  dsimp only
  cases hsort : sortScoresDesc s.scores with
  | nil =>
    have hsc : s.scores = [] := by
      have hperm := sortScoresDesc_perm s.scores
      rw [hsort] at hperm
      exact hperm.symm.eq_nil
    simp [hsort, hsc]
  | cons q rest =>
    obtain ⟨w, ws⟩ := q
    simp

/-- C7: `endSession` broadcasts a `sessionEnded` notification whose
leaderboard is the Score Board sorted in descending order of points (a
permutation of the entries, pairwise non-increasing), whose winner is the
head entry of that order — its points bound every entry of the board — and
when the Score Board is empty the winner is `none` and the leaderboard is
empty. -/
theorem C7_session_end_leaderboard (now : Int) (s : GameState) :
    Emit.sessionEnded ((sortScoresDesc s.scores).head?.map Prod.fst) s.scores
        (sortScoresDesc s.scores) ∈ (endSession now s).2.1 ∧
    List.Perm (sortScoresDesc s.scores) s.scores ∧
    (sortScoresDesc s.scores).Pairwise scoreGe ∧
    (∀ q, (sortScoresDesc s.scores).head? = some q → ∀ p ∈ s.scores, p.2 ≤ q.2) ∧
    (s.scores = [] → (sortScoresDesc s.scores).head?.map Prod.fst = none ∧
      sortScoresDesc s.scores = []) := by
  refine ⟨endSession_emits_leaderboard now s, sortScoresDesc_perm s.scores,
    sortScoresDesc_sorted s.scores, fun q hq => sortScoresDesc_head_max s.scores q hq, ?_⟩
  intro h
  rw [h]
  simp [sortScoresDesc]

/-- An ended-session state carrying the final scores of the example in the spec. -/
def c7state : GameState :=
  { initState with scores := [("A", 15), ("B", 10)] }

/-- C7 witness: with final scores `A := 15, B := 10`, the broadcast names `A`
as winner with the ordered leaderboard, and the points of `B` are bounded by
those of the winner. -/
theorem C7_witness :
    Emit.sessionEnded (some "A") [("A", 15), ("B", 10)] [("A", 15), ("B", 10)]
        ∈ (endSession 0 c7state).2.1 ∧ (10 : Int) ≤ 15 :=
  ⟨(C7_session_end_leaderboard 0 c7state).1,
   (C7_session_end_leaderboard 0 c7state).2.2.2.1 ("A", 15) rfl ("B", 10) (by decide)⟩

/-! ### Correct-guess behaviour -/

theorem endRound_emits_guessed (now : Int) (s : GameState) (w : String)
    (hw : s.currentWord = some w) :
    Emit.sysRoundEndGuessed w ∈ (endRound now true s).2.1 := by
  simpa using endRound_emits now true s w hw

theorem guessHandler_correct (s : GameState) (sid : String) (sender : Option String)
    (text : String) (now : Int) (w : String)
    (hnd : ¬ s.currentDrawer = some sid)
    (hactive : s.gameActive = true)
    (hword : s.currentWord = some w)
    (htrim : ¬ jsTrim text = "")
    (hmatch : jsToLower (jsTrim text) = jsToLower w) :
    (guessHandler sid sender text now s).1.scores
        = guessAwardScores (creditedName sender sid s.users)
            (s.currentDrawer.bind (fun d => alGet d s.users)) s.scores ∧
    (guessHandler sid sender text now s).1.currentWord = none ∧
    Emit.sysRoundEndGuessed w ∈ (guessHandler sid sender text now s).2.1 ∧
    Emit.scoreUpdate (guessAwardScores (creditedName sender sid s.users)
        (s.currentDrawer.bind (fun d => alGet d s.users)) s.scores)
      ∈ (guessHandler sid sender text now s).2.1 := by
  have hred : guessHandler sid sender text now s =
      (let player := creditedName sender sid s.users
       let drawerName := s.currentDrawer.bind (fun d => alGet d s.users)
       let scores2 := guessAwardScores player drawerName s.scores
       let s1 := { s with scores := scores2 }
       let r := endRound now true s1
       (r.1, [Emit.chatMessage player (jsTrim text),
              Emit.sysCorrectGuess player drawerName,
              Emit.scoreUpdate scores2] ++ r.2.1, r.2.2)) := by
    unfold guessHandler
    dsimp only
    rw [if_neg htrim, if_neg hnd, hactive, hword]
    dsimp only
    rw [if_pos hmatch]
  rw [hred]
  dsimp only
  refine ⟨?_, endRound_currentWord _ _ _, ?_, ?_⟩
  · rw [endRound_scores]
  · exact List.mem_append_right _ (endRound_emits_guessed now _ w hword)
  · exact List.mem_append_left _ (by simp)

theorem alGet_mem_snd {α : Type} {k : String} {v : α} {l : List (String × α)}
    (h : alGet k l = some v) : v ∈ l.map Prod.snd := by
  induction l with
  | nil => simp [alGet] at h
  | cons p rest ih =>
    unfold alGet at h
    split at h
    · injection h with h
      subst h
      simp
    · simpa using Or.inr (ih h)

/-- A round mid-guess in which two distinct sockets share the display name
`A`, and `s1` (one of the two) is drawing `cat`. -/
def c3state : GameState :=
  { initState with
    users := [("s1", "A"), ("s2", "A")], scores := [("A", 0)],
    currentDrawer := some "s1", currentWord := some "cat", gameActive := true,
    sessionStartTime := some 0, roundTimer := some 0, nextGen := 1 }

/-- C3 counterexample: the non-drawer socket `s2` guesses the word, but its
credited display name equals the name of the drawer, so the single shared entry
rises by 15 — the score of the guesser does not increase by exactly 10. -/
theorem C3_counterexample :
    alGet "A" c3state.scores = some 0 ∧
    alGet "A" (guessHandler "s2" none " CAT " 5000 c3state).1.scores = some 15 :=
  ⟨rfl, rfl⟩

/-- C3 (amended): for a guess from a non-drawer socket during an active round
whose trimmed text matches the word up to case, the round ends with the
"guessed" announcement and the updated Score Board is broadcast; when the
credited guesser name differs from the display name of the drawer the guesser
gains exactly 10 and the drawer exactly 5, but when the two names coincide
(duplicate display names, or a spoofed `from` field) the single shared entry
gains 15. -/
theorem C3_correct_guess_scoring (s : GameState) (sid : String)
    (sender : Option String) (text : String) (now : Int) (w d dn : String)
    (hnd : ¬ s.currentDrawer = some sid)
    (hactive : s.gameActive = true)
    (hword : s.currentWord = some w)
    (htrim : ¬ jsTrim text = "")
    (hmatch : jsToLower (jsTrim text) = jsToLower w)
    (hd : s.currentDrawer = some d)
    (hdn : alGet d s.users = some dn)
    (hdne : dn ≠ "") :
    (creditedName sender sid s.users ≠ dn →
      alGet (creditedName sender sid s.users) (guessHandler sid sender text now s).1.scores
          = some ((alGet (creditedName sender sid s.users) s.scores).getD 0 + 10) ∧
      alGet dn (guessHandler sid sender text now s).1.scores
          = some ((alGet dn s.scores).getD 0 + 5)) ∧
    (creditedName sender sid s.users = dn →
      alGet dn (guessHandler sid sender text now s).1.scores
          = some ((alGet dn s.scores).getD 0 + 15)) ∧
    (guessHandler sid sender text now s).1.currentWord = none ∧
    Emit.sysRoundEndGuessed w ∈ (guessHandler sid sender text now s).2.1 ∧
    Emit.scoreUpdate (guessHandler sid sender text now s).1.scores
        ∈ (guessHandler sid sender text now s).2.1 := by
  obtain ⟨hsc, hwd, hm1, hm2⟩ :=
    guessHandler_correct s sid sender text now w hnd hactive hword htrim hmatch
  have hdraw : s.currentDrawer.bind (fun d2 => alGet d2 s.users) = some dn := by
    rw [hd]
    exact hdn
  rw [hdraw] at hsc hm2
  have hsc0 := hsc
  unfold guessAwardScores at hsc
  dsimp only at hsc
  rw [if_neg hdne] at hsc
  refine ⟨?_, ?_, hwd, hm1, by rw [hsc0]; exact hm2⟩
  · intro hne
    constructor
    · rw [hsc, alGet_alSet_ne hne, alGet_alSet_self]
    · rw [hsc, alGet_alSet_self, alGet_alSet_ne (Ne.symm hne)]
  · intro heq
    rw [hsc, alGet_alSet_self, ← heq, alGet_alSet_self]
    simp only [Option.getD_some, Option.some.injEq]
    omega

/-- C3 witness: distinct display names — Ben guesses the word `cat` drawn by Ann;
gains 10, Ann gains 5, the round ends with the announcement, and the updated
scores are broadcast. -/
theorem C3_witness :
    alGet "Ben" (guessHandler "s2" none " CAT " 5000 c2state).1.scores = some 10 ∧
    alGet "Ann" (guessHandler "s2" none " CAT " 5000 c2state).1.scores = some 5 ∧
    Emit.sysRoundEndGuessed "cat" ∈ (guessHandler "s2" none " CAT " 5000 c2state).2.1 := by
  have h := C3_correct_guess_scoring c2state "s2" none " CAT " 5000 "cat" "s1" "Ann"
    (by decide) rfl rfl (by decide) (by decide) rfl rfl (by decide)
  obtain ⟨hne, -, -, hm, -⟩ := h
  obtain ⟨h10, h5⟩ := hne (by decide)
  exact ⟨h10, h5, hm⟩

/-! ### Intermission scheduling and firing -/

theorem endRound_scheds (now : Int) (b : Bool) (s : GameState) :
    (endRound now b s).2.2 = [] ∨
    (endRound now b s).2.2 = [Sched.intermission 5000] ∨
    (endRound now b s).2.2 = [Sched.scoreReset 10000] := by
  unfold endRound
  dsimp only
  split
  · exact Or.inl rfl
  · split
    · split
      · exact Or.inr (Or.inr rfl)
      · exact Or.inr (Or.inl rfl)
    all_goals exact Or.inl rfl

/-- An intermission state of a session that lost one of its two players:
only one participant remains and the session flag is still on. -/
def c6solo : GameState :=
  { initState with
    users := [("s1", "Solo")], scores := [("Solo", 0)],
    currentDrawer := some "s1", currentWord := none, gameActive := true,
    sessionStartTime := some 0, nextGen := 3 }

/-- C6 counterexample: the intermission timer fires while only ONE participant
is in the roster, yet a new round starts (the word becomes set): the
fire-time re-check uses threshold `playerCount >= 1`, not the minimum
participant count 2. -/
theorem C6_counterexample :
    c6solo.users.length = 1 ∧
    ((step (Event.intermissionFire 10000 4) c6solo).1.currentWord).isSome = true :=
  ⟨rfl, rfl⟩

/-- C6 (amended): the next round is scheduled only with the fixed 5000 ms
intermission delay, and the condition is re-checked against the state at fire
time — but with minimum participant count 1, not 2: at the intermission fire
a round starts iff the roster is non-empty and the session flag is still
on. -/
theorem C6_intermission_fire_recheck (now now2 : Int) (b : Bool) (k : Nat)
    (s s2 : GameState) (hword : s2.currentWord = none) :
    (∀ dms, Sched.intermission dms ∈ (endRound now b s).2.2 → dms = 5000) ∧
    (((step (Event.intermissionFire now2 k) s2).1.currentWord).isSome = true
      ↔ (1 ≤ s2.users.length ∧ s2.gameActive = true)) := by
  constructor
  · intro dms hmem
    rcases endRound_scheds now b s with hcs | hcs | hcs <;> rw [hcs] at hmem <;>
      simp at hmem
    exact hmem
  · show ((intermissionBody now2 k s2).1.currentWord).isSome = true ↔ _
    unfold intermissionBody
    dsimp only
    split
    · rename_i hcond
      rw [startNewRound_fst]
      have hne : ¬ s2.users = [] := by
        intro hnil
        rw [hnil] at hcond
        simp at hcond
      cases hnd : getNextDrawer s2.users s2.currentDrawer with
      | none => exact absurd ((getNextDrawer_spec s2.users s2.currentDrawer).1.mp hnd) hne
      | some d => simpa using hcond
    · rename_i hcond
      split
      · rename_i hzero
        rw [endSession_fst]
        simp only [Option.isSome_none, Bool.false_eq_true, false_iff]
        intro hc
        omega
      · simp only [hword, Option.isSome_none, Bool.false_eq_true, false_iff]
        exact hcond

/-- A two-player intermission state with the session still running. -/
def c6pair : GameState :=
  { initState with
    users := [("s1", "Ann"), ("s2", "Ben")], scores := [("Ann", 0), ("Ben", 0)],
    currentDrawer := some "s1", currentWord := none, gameActive := true,
    sessionStartTime := some 0, nextGen := 3 }

/-- A mid-round state used to exercise the intermission scheduling of
`endRound`. -/
def c6round : GameState :=
  { initState with
    users := [("s1", "Ann"), ("s2", "Ben")], scores := [("Ann", 0)],
    currentDrawer := some "s1", currentWord := some "dog", gameActive := true,
    sessionStartTime := some 0, roundTimer := some 0, nextGen := 1 }

/-- C6 witness: the delay of the scheduled intermission is 5000 ms, and with
two players still present at fire time a round does start. -/
theorem C6_witness :
    Sched.intermission 5000 ∈ (endRound 5000 true c6round).2.2 ∧
    ((step (Event.intermissionFire 10000 4) c6pair).1.currentWord).isSome = true :=
  ⟨by decide,
   (C6_intermission_fire_recheck 5000 10000 true 4 c6round c6pair rfl).2.mpr
     ⟨by decide, rfl⟩⟩

/-! ### Empty-text handling -/

/-- C8 counterexample: a chat event whose text is whitespace-only is not
dropped — the chat handler has no emptiness check and broadcasts the text
verbatim as a chat notification. -/
theorem C8_counterexample :
    step (Event.chat "s1" (some "Ann") "   ") initState
      = (initState, [Emit.chatMessage "Ann" "   "], []) := rfl

/-- C8 (amended): an inbound guess whose text is empty after trimming is
dropped with no notification, no state change and nothing scheduled; inbound
chat, however, is never filtered for emptiness — every chat event is
broadcast verbatim as one chat message whatever its text. -/
theorem C8_empty_guess_dropped_chat_verbatim (sid : String) (sender : Option String)
    (text : String) (now : Int) (s : GameState) (h : jsTrim text = "") :
    guessHandler sid sender text now s = (s, [], []) ∧
    chatHandler sid sender text s
      = (s, [Emit.chatMessage (creditedName sender sid s.users) text], []) := by
  refine ⟨?_, rfl⟩
  unfold guessHandler
  dsimp only
  rw [if_pos h]

/-- C8 witness: a whitespace-only guess against the initial state is a
complete no-op, while the same whitespace-only chat is broadcast. -/
theorem C8_witness :
    guessHandler "s1" none "   " 5 initState = (initState, [], []) ∧
    chatHandler "s1" none "   " initState
      = (initState, [Emit.chatMessage (creditedName none "s1" initState.users) "   "], []) :=
  C8_empty_guess_dropped_chat_verbatim "s1" none "   " 5 initState rfl

/-! ### The Roster/Score-Board coverage invariant -/

/-- Every display name present in the roster has a (possibly zero) Score
Board entry. -/
def scoresCover (s : GameState) : Prop :=
  ∀ n ∈ s.users.map Prod.snd, (alGet n s.scores).isSome = true

theorem scoresCover_of {s s2 : GameState}
    (hu : ∀ x ∈ s2.users.map Prod.snd, x ∈ s.users.map Prod.snd)
    (hs : ∀ n, (alGet n s.scores).isSome = true → (alGet n s2.scores).isSome = true)
    (hc : scoresCover s) : scoresCover s2 :=
  fun n hn => hs n (hc n (hu n hn))

theorem scoresCover_usersRemove (sid : String) {s : GameState} (hc : scoresCover s) :
    scoresCover { s with users := alRemove sid s.users } :=
  fun n hn => hc n (mem_snd_alRemove hn)

theorem scoresCover_endSession (now : Int) (s : GameState) (hc : scoresCover s) :
    scoresCover (endSession now s).1 :=
  hc

theorem scoresCover_startNewRound (now : Int) (k : Nat) (s : GameState)
    (hc : scoresCover s) : scoresCover (startNewRound now k s).1 := by
  rw [startNewRound_fst]
  cases getNextDrawer s.users s.currentDrawer <;> exact hc

theorem scoresCover_startSession (now : Int) (k : Nat) (s : GameState)
    (hc : scoresCover s) : scoresCover (startSession now k s).1 :=
  scoresCover_startNewRound now k _ hc

theorem scoresCover_endRound (now : Int) (b : Bool) (s : GameState)
    (hc : scoresCover s) : scoresCover (endRound now b s).1 := by
  rcases endRound_fst_cases now b s with ⟨-, hcs⟩ | hcs | hcs <;> rw [hcs] <;> exact hc

theorem scoresCover_countdownTickBody (now : Int) (k : Nat) (s : GameState)
    (hc : scoresCover s) : scoresCover (countdownTickBody now k s).1 := by
  unfold countdownTickBody
  dsimp only
  split
  · exact scoresCover_startSession now k _ hc
  · exact hc

theorem guessAwardScores_isSome_mono (player : String) (drawerName : Option String)
    (scores : List (String × Int)) (n : String)
    (h : (alGet n scores).isSome = true) :
    (alGet n (guessAwardScores player drawerName scores)).isSome = true := by
  unfold guessAwardScores
  dsimp only
  cases drawerName with
  | none => exact alGet_alSet_isSome _ _ _ _ h
  | some dn =>
    dsimp only
    by_cases hdn : dn = ""
    · rw [if_pos hdn]
      exact alGet_alSet_isSome _ _ _ _ h
    · rw [if_neg hdn]
      exact alGet_alSet_isSome _ _ _ _ (alGet_alSet_isSome _ _ _ _ h)

theorem scoresCover_guessHandler (sid : String) (sender : Option String)
    (text : String) (now : Int) (s : GameState) (hc : scoresCover s) :
    scoresCover (guessHandler sid sender text now s).1 := by
  unfold guessHandler
  dsimp only
  split
  · exact hc
  split
  · exact hc
  split
  · split
    · refine scoresCover_of ?_ ?_ hc
      · intro x hx
        rw [endRound_users] at hx
        exact hx
      · intro n hn
        rw [endRound_scores]
        exact guessAwardScores_isSome_mono _ _ _ _ hn
    · exact hc
  all_goals exact hc

theorem joinHandler_fst_users (sid name : String) (s : GameState) :
    (joinHandler sid name s).1.users
      = alSet sid (if jsTrim name = "" then fallbackName sid else jsTrim name) s.users := by
  unfold joinHandler
  dsimp only
  repeat' split
  all_goals rfl

theorem joinHandler_fst_scores (sid name : String) (s : GameState) :
    (joinHandler sid name s).1.scores
      = (if (alGet (if jsTrim name = "" then fallbackName sid else jsTrim name)
              s.scores).getD 0 = 0
         then alSet (if jsTrim name = "" then fallbackName sid else jsTrim name) 0 s.scores
         else s.scores) := by
  unfold joinHandler
  dsimp only
  repeat' split
  all_goals rfl

theorem scoresCover_joinHandler (sid name : String) (s : GameState)
    (hc : scoresCover s) : scoresCover (joinHandler sid name s).1 := by
  intro x hx
  rw [joinHandler_fst_users] at hx
  rw [joinHandler_fst_scores]
  rcases mem_snd_alSet hx with hx | hx
  · subst hx
    by_cases h0 : (alGet (if jsTrim name = "" then fallbackName sid else jsTrim name)
        s.scores).getD 0 = 0
    · rw [if_pos h0, alGet_alSet_self]
      rfl
    · rw [if_neg h0]
      cases hg : alGet (if jsTrim name = "" then fallbackName sid else jsTrim name)
          s.scores with
      | none => rw [hg] at h0; simp at h0
      | some v => simp [hg]
  · have hold := hc x hx
    by_cases h0 : (alGet (if jsTrim name = "" then fallbackName sid else jsTrim name)
        s.scores).getD 0 = 0
    · rw [if_pos h0]
      exact alGet_alSet_isSome _ _ _ _ hold
    · rw [if_neg h0]
      exact hold

theorem scoresCover_disconnectHandler (sid : String) (now : Int) (s : GameState)
    (hc : scoresCover s) : scoresCover (disconnectHandler sid now s).1 := by
  unfold disconnectHandler
  cases alGet sid s.users with
  | none => exact hc
  | some name =>
    dsimp only
    split
    · split
      · exact scoresCover_endSession now _
          (scoresCover_usersRemove sid (scoresCover_endRound now false s hc))
      · exact scoresCover_usersRemove sid (scoresCover_endRound now false s hc)
    · split
      · exact scoresCover_endSession now _ (scoresCover_usersRemove sid hc)
      · exact scoresCover_usersRemove sid hc

theorem scoresCover_leaveGameHandler (sid : String) (now : Int) (s : GameState)
    (hc : scoresCover s) : scoresCover (leaveGameHandler sid now s).1 := by
  unfold leaveGameHandler
  cases alGet sid s.users with
  | none => exact hc
  | some name =>
    dsimp only
    split
    · split
      · exact scoresCover_endSession now _
          (scoresCover_usersRemove sid (scoresCover_endRound now false s hc))
      · exact scoresCover_usersRemove sid (scoresCover_endRound now false s hc)
    · split
      · exact scoresCover_endSession now _ (scoresCover_usersRemove sid hc)
      · exact scoresCover_usersRemove sid hc

theorem scoresCover_intermissionBody (now : Int) (k : Nat) (s : GameState)
    (hc : scoresCover s) : scoresCover (intermissionBody now k s).1 := by
  unfold intermissionBody
  dsimp only
  split
  · exact scoresCover_startNewRound now k s hc
  split
  · exact scoresCover_endSession now s hc
  · exact hc

theorem scoresCover_step (e : Event) (s : GameState) (hc : scoresCover s)
    (hne : e ≠ Event.scoreResetFire) : scoresCover (step e s).1 := by
  cases e with
  | join sid name => exact scoresCover_joinHandler sid name s hc
  | leaveGame sid now => exact scoresCover_leaveGameHandler sid now s hc
  | disconnect sid now => exact scoresCover_disconnectHandler sid now s hc
  | chat sid sender text => exact hc
  | guess sid sender text now => exact scoresCover_guessHandler sid sender text now s hc
  | stroke sid payload valid =>
    show scoresCover (strokeHandler sid payload valid s).1
    unfold strokeHandler
    split
    · split <;> exact hc
    · exact hc
  | clearReq sid =>
    show scoresCover (clearHandler sid s).1
    unfold clearHandler
    split <;> exact hc
  | countdownTick g now k =>
    show scoresCover (if s.countdownTimer = some g then countdownTickBody now k s
      else (s, [], [])).1
    split
    · exact scoresCover_countdownTickBody now k s hc
    · exact hc
  | roundTimerFire g now =>
    show scoresCover (if s.roundTimer = some g then endRound now false s
      else (s, [], [])).1
    split
    · exact scoresCover_endRound now false s hc
    · exact hc
  | sessionTimerFire g now =>
    show scoresCover (if s.sessionTimer = some g then endSession now s
      else (s, [], [])).1
    split
    · exact scoresCover_endSession now s hc
    · exact hc
  | intermissionFire now k => exact scoresCover_intermissionBody now k s hc
  | scoreResetFire => exact absurd rfl hne

/-- A reachable run: two joins trigger the countdown; its 20 ticks start the
session and the first round; the session timer then ends the session and the
deferred reset wipes the Score Board while both players are still present. -/
def c9events : List Event :=
  [Event.join "sA" "Alice", Event.join "sB" "Bob"]
    ++ List.replicate 20 (Event.countdownTick 0 1000 3)
    ++ [Event.sessionTimerFire 2 700000, Event.scoreResetFire]

/-- C9 counterexample: at the end of the reachable run `c9events`, `Alice` is
still a roster display name but the Score Board has no entry for her — the
deferred Score Board reset does not preserve the invariant. -/
theorem C9_counterexample :
    "Alice" ∈ (runState c9events initState).users.map Prod.snd ∧
    alGet "Alice" (runState c9events initState).scores = none := by
  have hu : (runState c9events initState).users.map Prod.snd = ["Alice", "Bob"] := rfl
  refine ⟨?_, rfl⟩
  rw [hu]
  simp

/-- C9 (amended): the invariant "every roster display name has a (possibly
zero) Score Board entry" holds in the initial state, is established for the
joining name by `join`, and is preserved by every operation EXCEPT the
deferred Score Board reset fired 10 s after session end, which clears all
entries while participants may remain in the roster. -/
theorem C9_cover_invariant (e : Event) (s : GameState) (hc : scoresCover s)
    (hne : e ≠ Event.scoreResetFire) :
    scoresCover initState ∧ scoresCover (step e s).1 :=
  ⟨fun n hn => absurd hn (by simp [initState]), scoresCover_step e s hc hne⟩

/-- C9 witness: the invariant holds after a concrete join applied to the
initial state. -/
theorem C9_witness :
    scoresCover initState ∧ scoresCover (step (Event.join "s1" "Ann") initState).1 :=
  C9_cover_invariant (Event.join "s1" "Ann") initState
    (fun n hn => absurd hn (by simp [initState])) (by decide)

/-! ### Credited-name selection and `from`-field spoofing -/

/-- A mid-round state for the spoofing witness: Ann is drawing `cat`, Ben is
connected. -/
def c10state : GameState :=
  { initState with
    users := [("s1", "Ann"), ("s2", "Ben")], scores := [("Ann", 0), ("Ben", 0)],
    currentDrawer := some "s1", currentWord := some "cat", gameActive := true,
    sessionStartTime := some 0, roundTimer := some 0, nextGen := 1 }

/-- C10: the name credited to a guess is the `from` field of the payload whenever
that field is present and non-empty; only otherwise does it fall back to the
roster display name of the sender and then to the fallback
derived from the connection id.  Consequently, a correct guess whose `from`
field is an arbitrary non-empty string that is not any roster display name
creates or increments a Score Board entry under that name (with the +10
guesser award). -/
theorem C10_credited_name_spoofing (sid : String) (users2 : List (String × String))
    (sender : Option String) (text : String) (now : Int) (s : GameState) (w f : String) :
    (∀ fv, sender = some fv → fv ≠ "" → creditedName sender sid users2 = fv) ∧
    ((sender = none ∨ sender = some "") →
      creditedName sender sid users2 = jsOr (alGet sid users2) (fallbackName sid)) ∧
    (sender = some f → f ≠ "" → f ∉ s.users.map Prod.snd →
      ¬ s.currentDrawer = some sid → s.gameActive = true → s.currentWord = some w →
      ¬ jsTrim text = "" → jsToLower (jsTrim text) = jsToLower w →
      alGet f (guessHandler sid sender text now s).1.scores
        = some ((alGet f s.scores).getD 0 + 10)) := by
  refine ⟨?_, ?_, ?_⟩
  · intro fv hfv hne
    subst hfv
    simp [creditedName, jsOr, hne]
  · intro hcase
    rcases hcase with h | h <;> subst h <;> simp [creditedName, jsOr]
  · intro hf hfne hnotin hnd hact hword htrim hmatch
    obtain ⟨hsc, -, -, -⟩ :=
      guessHandler_correct s sid sender text now w hnd hact hword htrim hmatch
    have hplayer : creditedName sender sid s.users = f := by
      subst hf
      simp [creditedName, jsOr, hfne]
    rw [hsc, hplayer]
    unfold guessAwardScores
    dsimp only
    cases hdr : s.currentDrawer.bind (fun d2 => alGet d2 s.users) with
    | none => rw [alGet_alSet_self]
    | some dn =>
      dsimp only
      have hdn_mem : dn ∈ s.users.map Prod.snd := by
        rcases hcd : s.currentDrawer with - | d
        · rw [hcd] at hdr
          simp at hdr
        · rw [hcd] at hdr
          simp only [Option.some_bind] at hdr
          exact alGet_mem_snd hdr
      have hne2 : dn ≠ f := fun hEq => hnotin (hEq ▸ hdn_mem)
      by_cases hdn0 : dn = ""
      · rw [if_pos hdn0, alGet_alSet_self]
      · rw [if_neg hdn0, alGet_alSet_ne (Ne.symm hne2), alGet_alSet_self]

/-- C10 witness: a guess with `from := "Mallory"` — a name absent from the
roster — is credited to `Mallory` and a correct guess creates the entry
`Mallory := 10`. -/
theorem C10_witness :
    creditedName (some "Mallory") "s2" c10state.users = "Mallory" ∧
    alGet "Mallory" (guessHandler "s2" (some "Mallory") "cat" 5000 c10state).1.scores
      = some ((alGet "Mallory" c10state.scores).getD 0 + 10) :=
  ⟨(C10_credited_name_spoofing "s2" c10state.users (some "Mallory") "cat" 5000
      c10state "cat" "Mallory").1 "Mallory" rfl (by decide),
   (C10_credited_name_spoofing "s2" c10state.users (some "Mallory") "cat" 5000
      c10state "cat" "Mallory").2.2 rfl (by decide) (by decide) (by decide) rfl rfl
      (by decide) rfl⟩

end Scribble
